import Mathlib

/-!
Verification of the ovms_exporter telemetry decoding and metrics-exposition
engine.  The repository ships two historical variants of the exporter in its
sources: the multi-schema variant (namespace `Proto` below; it serves
`/api/protocol/` records typed by a one-letter code `S`/`D`/`L`/`W`) and the
single-schema historical-records variant (namespace `Hist` below; it serves
`/api/historical/.../D` records through a regular-expression name filter and
grouped `# TYPE` rendering).  The `GoStd` namespace models the Go standard
library functions the program calls (`strings.Split`, `strings.Join`,
`strings.ReplaceAll`, `time.ParseInLocation` with the fixed layout
`"2006-01-02 15:04:05"` plus `Time.UnixMilli`, `strconv.ParseFloat` success,
`strconv.Quote` as used by `fmt.Sprintf` `%q`, and `regexp.MatchString` for
the literal-with-optional-anchors patterns the program uses).
-/

namespace GoStd

/-- Model of Go `strings.Split(s, ",")` on the character list: splitting the
empty string yields one empty field, exactly as `strings.Split` does. -/
def splitOnComma : List Char → List (List Char)
  | [] => [[]]
  | c :: rest =>
    match splitOnComma rest with
    | [] => [[c]]
    | g :: gs => if c = ',' then [] :: g :: gs else (c :: g) :: gs

/-- `strings.Split(s, ",")` at the `String` level. -/
def splitComma (s : String) : List String := (splitOnComma s.data).map (fun cs => String.mk cs)

/-- Model of Go `strings.Join(xs, sep)`. -/
def goJoin (xs : List String) (sep : String) : String :=
  match xs with
  | [] => ""
  | y :: ys => List.foldl (fun acc x => acc ++ sep ++ x) y ys

/-- Numeric value of a decimal digit character. -/
def digitVal (c : Char) : Nat := c.toNat - '0'.toNat

/-- Model of Go `time` package `getnum`: reads one or two decimal digits; with
`fixed = true` exactly two digits are required (layout elements `01`, `02`,
`04`, `05`), with `fixed = false` one digit is also accepted (element `15`). -/
def getnum (fixed : Bool) : List Char → Option (Nat × List Char)
  | [] => none
  | c1 :: rest =>
    if c1.isDigit then
      match rest with
      | c2 :: rest2 =>
        if c2.isDigit then some (digitVal c1 * 10 + digitVal c2, rest2)
        else if fixed then none else some (digitVal c1, rest)
      | [] => if fixed then none else some (digitVal c1, [])
    else none

/-- Model of the four-digit year read for layout element `2006`. -/
def getnum4 : List Char → Option (Nat × List Char)
  | c1 :: c2 :: c3 :: c4 :: rest =>
    if c1.isDigit ∧ c2.isDigit ∧ c3.isDigit ∧ c4.isDigit then
      some ((((digitVal c1 * 10) + digitVal c2) * 10 + digitVal c3) * 10 + digitVal c4, rest)
    else none
  | _ => none

/-- Consume one expected literal layout character. -/
def expectC (c : Char) : List Char → Option (List Char)
  | [] => none
  | x :: rest => if x = c then some rest else none

/-- Gregorian leap-year rule, as used by Go `time.daysIn`. -/
def isLeap (y : Nat) : Bool := y % 4 == 0 && (y % 100 != 0 || y % 400 == 0)

/-- Days in a month, as used by Go `time.daysIn` to validate the parsed day. -/
def daysInMonth (m y : Nat) : Nat :=
  if m = 2 then (if isLeap y then 29 else 28)
  else if m = 4 ∨ m = 6 ∨ m = 9 ∨ m = 11 then 30 else 31

/-- Days since the Unix epoch of a civil date (the standard era-based
conversion used to model `time.Date(...).Unix()` for UTC wall-clock input). -/
def daysFromCivil (y m d : Int) : Int :=
  let y2 : Int := if m ≤ 2 then y - 1 else y
  let era : Int := (if 0 ≤ y2 then y2 else y2 - 399) / 400
  let yoe : Int := y2 - era * 400
  let mp : Int := if 2 < m then m - 3 else m + 9
  let doy : Int := (153 * mp + 2) / 5 + d - 1
  let doe : Int := yoe * 365 + yoe / 4 - yoe / 100 + doy
  era * 146097 + doe - 719468

/-- Model of `time.ParseInLocation("2006-01-02 15:04:05", s, time.UTC)`
followed by `.UnixMilli()`: returns the epoch milliseconds on success and
`none` exactly when Go's parse returns an error (wrong shape, trailing text,
or an out-of-range month/day/hour/minute/second). -/
def parseTimestamp (s : String) : Option Int := do
  let (y, r) ← getnum4 s.data
  let r ← expectC '-' r
  let (mo, r) ← getnum true r
  let r ← expectC '-' r
  let (d, r) ← getnum true r
  let r ← expectC ' ' r
  let (h, r) ← getnum false r
  let r ← expectC ':' r
  let (mi, r) ← getnum true r
  let r ← expectC ':' r
  let (se, r) ← getnum true r
  if r = [] ∧ 1 ≤ mo ∧ mo ≤ 12 ∧ 1 ≤ d ∧ d ≤ daysInMonth mo y ∧
      h ≤ 23 ∧ mi ≤ 59 ∧ se ≤ 59 then
    some ((daysFromCivil y mo d * 86400 + h * 3600 + mi * 60 + se) * 1000)
  else none

/-- ASCII lower-casing, as Go `strconv` does when matching special values and
base markers case-insensitively. -/
def lowerC (c : Char) : Char := if 'A' ≤ c ∧ c ≤ 'Z' then Char.ofNat (c.toNat + 32) else c

/-- Strip one leading sign, if present. -/
def stripSign : List Char → List Char
  | '+' :: t => t
  | '-' :: t => t
  | t => t

/-- Model of `strconv`'s `special`: `NaN` (unsigned) and optionally signed
`Inf` / `Infinity`, case-insensitive, consuming the whole string. -/
def specialOk (cs : List Char) : Bool :=
  let ls := cs.map lowerC
  ls == "nan".data || (let t := stripSign ls; t == "inf".data || t == "infinity".data)

/-- Hexadecimal digit test (case-insensitive). -/
def isHexDig (c : Char) : Bool := c.isDigit || ('a' ≤ lowerC c && lowerC c ≤ 'f')

/-- Mantissa scan of `strconv`'s `readFloat`: consumes digits, underscores and
at most one dot, returning whether any digit was seen and the unconsumed
rest.  A second dot stops the scan (and later forces a parse failure because
the rest is then neither empty nor an exponent). -/
def mantLoop (hex : Bool) : List Char → Bool → Bool → Bool × List Char
  | [], sd, _ => (sd, [])
  | c :: rest, sd, sdot =>
    if c = '_' then mantLoop hex rest sd sdot
    else if c = '.' then
      if sdot then (sd, c :: rest) else mantLoop hex rest sd true
    else if (if hex then isHexDig c else c.isDigit) then mantLoop hex rest true sdot
    else (sd, c :: rest)

/-- Consume the digits (and tolerated underscores) of an exponent. -/
def expDigits : List Char → List Char
  | [] => []
  | c :: rest => if c.isDigit || c = '_' then expDigits rest else c :: rest

/-- Exponent body after the `e`/`p` marker: optional sign, then at least one
decimal digit, then digits or underscores to the end of the string. -/
def expOk (cs : List Char) : Bool :=
  match stripSign cs with
  | c :: rest => c.isDigit && (expDigits rest).isEmpty
  | [] => false

/-- Scanning state machine of `strconv.underscoreOK`: `saw` is `'^'` at the
start, `'0'` after a digit (or base prefix), `'_'` after an underscore and
`'!'` after any other character; every underscore must follow a digit and be
followed by a digit. -/
def underLoop (hex : Bool) : List Char → Char → Bool
  | [], saw => saw != '_'
  | c :: rest, saw =>
    if c.isDigit || (hex && ('a' ≤ lowerC c && lowerC c ≤ 'f')) then underLoop hex rest '0'
    else if c = '_' then (if saw = '0' then underLoop hex rest '_' else false)
    else if saw = '_' then false
    else underLoop hex rest '!'

/-- Model of `strconv.underscoreOK`. -/
def underscoreOK (cs : List Char) : Bool :=
  match stripSign cs with
  | '0' :: c2 :: rest =>
    if lowerC c2 = 'x' ∨ lowerC c2 = 'b' ∨ lowerC c2 = 'o' then
      underLoop (lowerC c2 == 'x') rest '0'
    else underLoop false ('0' :: c2 :: rest) '^'
  | t => underLoop false t '^'

/-- Decimal number body: nonempty mantissa, optionally followed by an
`e`-exponent that runs to the end of the string. -/
def decimalOk (t : List Char) : Bool :=
  let (sd, r) := mantLoop false t false false
  sd && (match r with
         | [] => true
         | c :: rr => (lowerC c == 'e') && expOk rr)

/-- Number body after the optional sign: hexadecimal mantissa with a mandatory
`p`-exponent when the `0x` prefix is present, decimal otherwise. -/
def numberOk (cs : List Char) : Bool :=
  let t := stripSign cs
  match t with
  | '0' :: c2 :: rest =>
    if lowerC c2 = 'x' then
      let (sd, r) := mantLoop true rest false false
      sd && (match r with
             | c :: rr => (lowerC c == 'p') && expOk rr
             | [] => false)
    else decimalOk t
  | _ => decimalOk t

/-- Model of `strconv.ParseFloat(s, 64)` succeeding (error `nil`).  This is
the syntactic acceptance of Go's float grammar: special values, decimal and
hexadecimal forms, exponents and Go's underscore placement rule.  Go
additionally reports a range error for syntactically valid literals whose
magnitude rounds beyond `float64` (e.g. `1e1000`) or underflows to zero; no
theorem below evaluates the formatter on such extreme literals, and the
claims under verification do not depend on them. -/
def parseFloatOk (s : String) : Bool :=
  specialOk s.data || (numberOk s.data && underscoreOK s.data)

/-- Hexadecimal digit character for `\x` escapes. -/
def hexDig (n : Nat) : Char := if n < 10 then Char.ofNat ('0'.toNat + n) else Char.ofNat ('a'.toNat + n - 10)

/-- Concatenation of a list of strings (Go builds the quoted form by
appending pieces). -/
def strConcat : List String → String
  | [] => ""
  | s :: rest => s ++ strConcat rest

/-- Escaping of one character by `strconv.Quote`, as invoked by the `%q` verb:
quote and backslash are backslash-escaped, the ASCII control characters get
their letter escapes or `\x` escapes, and printable characters stand for
themselves.  (Go additionally `\u`-escapes non-printable runes beyond ASCII;
the formatter is only ever applied to byte-payload fields and no theorem
below evaluates it on such runes.) -/
def quoteChar (c : Char) : String :=
  if c = '"' then "\\\""
  else if c = '\\' then "\\\\"
  else if c = '\x07' then "\\a"
  else if c = '\x08' then "\\b"
  else if c = '\x0c' then "\\f"
  else if c = '\n' then "\\n"
  else if c = '\r' then "\\r"
  else if c = '\t' then "\\t"
  else if c = '\x0b' then "\\v"
  else if c.toNat < 0x20 ∨ c.toNat = 0x7f then
    "\\x" ++ String.mk [hexDig (c.toNat / 16), hexDig (c.toNat % 16)]
  else String.mk [c]

/-- Model of `strconv.Quote` / the `%q` format verb. -/
def goQuote (s : String) : String := "\"" ++ strConcat (s.data.map quoteChar) ++ "\""

/-- The regular-expression patterns the exporter uses are literals with
optional `^` and `$` anchors, or the match-everything pattern `.*`.  This
abstract syntax covers exactly those. -/
inductive GoPat where
  | lit (l : String) (anchorStart anchorEnd : Bool)
  | dotStar

/-- Model of Go `regexp.MatchString` for the patterns above: `MatchString`
reports whether the string CONTAINS any match of the pattern (an unanchored
search), so a fully anchored literal demands equality with the whole string,
a start-anchored one demands the literal as a leading segment, an
end-anchored one as a trailing segment, an unanchored literal anywhere
inside the string, and `.*` matches everything (the empty match suffices). -/
def goMatchString : GoPat → String → Bool
  | .dotStar, _ => true
  | .lit l true true, s => s == l
  | .lit l true false, s => decide (l.data <+: s.data)
  | .lit l false true, s => decide (l.data <:+ s.data)
  | .lit l false false, s => decide (l.data <:+: s.data)

/-- Model of `strings.ReplaceAll(s, ".", "_")`: since the pattern is a single
character, replacement is a per-character map. -/
def normalizeName (s : String) : String :=
  String.mk (s.data.map (fun c => if c = '.' then '_' else c))

end GoStd

namespace Proto

/-- One decoded JSON object of the `/api/protocol/` feed (struct `record` of
the multi-schema variant); the unused fields `m_paranoid` and `m_ptoken`
carry no behaviour and are omitted. -/
structure Rec where
  code : String
  msg : String
  msgTime : String

/-- Positional schema for message-type code `S` (`sMetrics`). -/
def sMetrics : List String :=
  ["ms_v_bat_soc", "m_units_distance", "ms_v_charge_voltage", "ms_v_charge_current",
   "ms_v_charge_state", "ms_v_charge_mode", "ms_v_bat_range_ideal", "ms_v_bat_range_est",
   "ms_v_charge_climit", "ms_v_charge_time", "car_charge_b4", "ms_v_charge_kwh",
   "ms_v_charge_substate", "ms_v_charge_state", "ms_v_charge_mode", "ms_v_charge_timermode",
   "ms_v_charge_timerstart", "car_stale_timer", "ms_v_bat_cac", "ms_v_charge_duration_full",
   "ms_v_charge_duration_chage_limit", "ms_v_charge_limit_range", "ms_v_charge_limit_soc",
   "ms_v_env_cooling", "car_cooldown_tbattery", "car_cooldown_timelimit", "car_chargeestimate",
   "mins_range", "mins_soc", "ms_v_bat_range_full", "car_chargetype", "ms_v_bat_power",
   "ms_v_bat_voltage", "ms_v_bat_soh", "ms_v_charge_power", "ms_v_charge_efficiency",
   "ms_v_bat_current", "ms_v_bat_range_speed"]

/-- Positional schema for message-type code `D` (`dMetrics`). -/
def dMetrics : List String :=
  ["doors1", "doors2", "ms_v_env_locked", "ms_v_inv_temp", "ms_v_mot_temp", "ms_v_bat_temp",
   "ms_v_pos_trip", "ms_v_pos_odometer", "ms_v_pos_speed", "ms_v_env_parktime", "ms_v_env_temp",
   "doors3", "stale_temps", "ms_v_env_temp", "ms_v_bat_12v_voltage", "doors4",
   "ms_v_bat_12v_voltage_ref", "doors5", "ms_v_charge_temp", "ms_v_bat_12v_current",
   "ms_v_env_cabintemp"]

/-- Positional schema for message-type code `L` (`lMetrics`). -/
def lMetrics : List String :=
  ["ms_v_pos_latitude", "ms_v_pos_longitude", "ms_v_pos_direction", "ms_v_pos_altitude",
   "ms_v_pos_gpslock", "stale", "ms_v_pos_speed", "ms_v_pos_trip", "drivemode",
   "ms_v_bat_power", "ms_v_bat_energy_used", "ms_v_bat_energy_recd", "ms_v_inv_power",
   "ms_v_inv_efficiency", "ms_v_pos_gpsmode", "ms_v_pos_satcount", "ms_v_pos_gpshdop",
   "ms_v_pos_gpsspeed", "ms_v_pos_gpssq"]

/-- Positional schema for message-type code `W` (`wMetrics`). -/
def wMetrics : List String :=
  ["wheels_count", "wheel1", "wheel2", "wheel3", "wheel4", "ms_v_tpms_pressure_count",
   "ms_v_tpms_pressure", "defstale_pressure", "ms_v_tpms_temp_count", "ms_v_tpms_temp",
   "defstale_temp", "ms_v_tpms_health_count", "ms_v_tpms_health", "defstale_health",
   "ms_v_tpms_alert_count", "ms_v_tpms_alert", "defstale_alert"]

/-- The schema registry `metricsMap`, as a lookup by message-type code. -/
def metricsMap (code : String) : Option (List String) :=
  if code = "S" then some sMetrics
  else if code = "D" then some dMetrics
  else if code = "L" then some lMetrics
  else if code = "W" then some wMetrics
  else none

/-- The sample formatter `promMetric`.  The source takes a `time.Time` and
uses only its `UnixMilli()`; the model takes the milliseconds directly.  If
`strconv.ParseFloat(val, 64)` fails the raw value goes into a `value` label
(via the `%q` verb) with constant sample value `1`; otherwise the raw value
is the sample value. -/
def promMetric (name val : String) (tsMillis : Int) : String :=
  if GoStd.parseFloatOk val then name ++ " " ++ val ++ " " ++ toString tsMillis
  else name ++ "\x7bvalue=" ++ GoStd.goQuote val ++ "\x7d 1 " ++ toString tsMillis

/-- The per-record body of the `fetchMetrics` loop: a record whose timestamp
fails to parse is skipped (`continue`, contributing no lines), a record with
an unknown message-type code contributes no lines, and an in-range record
contributes one formatted line per payload field, named by the schema slot at
the same position.  A payload with more fields than the schema has slots
makes the loop index the schema array out of range, a Go runtime panic that
kills the process: modelled as `none`. -/
def decodeRec (r : Rec) : Option (List String) :=
  match GoStd.parseTimestamp r.msgTime with
  | none => some []
  | some tsm =>
    let fields := GoStd.splitComma r.msg
    match metricsMap r.code with
    | none => some []
    | some m =>
      if fields.length ≤ m.length then
        some ((m.zip fields).map (fun p => promMetric ("ovms_" ++ r.code ++ "_" ++ p.1) p.2 tsm))
      else none

/-- The full record loop of `fetchMetrics`: lines accumulate across records in
order; a panic in any record kills the process (`none`). -/
def decodeBatch : List Rec → Option (List String)
  | [] => some []
  | r :: rs => do
      let a ← decodeRec r
      let b ← decodeBatch rs
      pure (a ++ b)

/-- The observable outcomes of one `fetch()` + `json.Unmarshal` step:
`fetchFail` covers an HTTP error or an empty body (`data == nil ||
len(data) == 0`), `decodeFail` a body that does not unmarshal as a JSON
array of records, and `ok` a successfully decoded batch. -/
inductive FetchOutcome where
  | fetchFail
  | decodeFail
  | ok (records : List Rec)

/-- `fetchMetrics()` as a function of the fetch outcome: the failure paths
return the empty string, a decoded batch renders as the lines joined with
newlines plus a trailing newline (so a successful cycle never returns the
empty string, and the empty batch renders as `"\n"`). -/
def fetchMetrics : FetchOutcome → Option String
  | .fetchFail => some ""
  | .decodeFail => some ""
  | .ok rs => (decodeBatch rs).map (fun ls => GoStd.goJoin ls "\n" ++ "\n")

/-- One iteration of the refresh goroutine over the cached snapshot text:
`m := fetchMetrics(); if m != "" { metricsText = m }`. -/
def refreshStep (o : FetchOutcome) (cache : String) : Option String :=
  (fetchMetrics o).map (fun m => if m = "" then cache else m)

end Proto

namespace Hist

/-- One decoded JSON object of the `/api/historical/.../D` feed (struct
`record` of the filtered variant); `h_recordnumber` is informational only
and unused. -/
structure Rec where
  data : String
  timestamp : String

/-- The raw `D`-schema names before normalization (the literal slice passed
to `normalize` in the source); the empty name marks an ignored position. -/
def dMetricsRaw : List String :=
  ["", "", "", "", "v.m.temp", "v.b.temp", "v.p.trip", "v.p.odometer", "v.p.speed",
   "v.e.parktime", "v.e.temp", "", "", "", "v.b.12v.voltage", "", "v.b.12v.voltage.ref",
   "", "v.c.temp", "v.b.12v.current", "v.e.cabintemp"]

/-- `dMetrics = normalize([...])`, dots replaced by underscores. -/
def dMetrics : List String := dMetricsRaw.map GoStd.normalizeName

/-- The shipped default of the `-filter` flag, `^v_b_12v_voltage$`. -/
def defaultFilter : GoStd.GoPat := .lit "v_b_12v_voltage" true true

/-- One rendered sample line, `fmt.Sprintf("%s %s %d", name, val, ts.UnixMilli())`. -/
def lineFor (name val : String) (tsm : Int) : String := name ++ " " ++ val ++ " " ++ toString tsm

/-- Decoding one record into its (metric name, rendered line) pairs in field
order, BEFORE the filter is applied.  A timestamp that fails to parse hits
`vlog.Fatalf`, which terminates the process (`none`); a payload with more
fields than the 21 schema slots makes `dMetrics[i]` panic (`none`). -/
def decodeRec (r : Rec) : Option (List (String × String)) :=
  match GoStd.parseTimestamp r.timestamp with
  | none => none
  | some tsm =>
    let fields := GoStd.splitComma r.data
    if fields.length ≤ dMetrics.length then
      some ((dMetrics.zip fields).map (fun p => (p.1, lineFor p.1 p.2 tsm)))
    else none

/-- Decoding a whole batch into the flat, record-then-field ordered pair
list; any per-record fatal error or panic aborts everything (`none`). -/
def decodeBatch : List Rec → Option (List (String × String))
  | [] => some []
  | r :: rs => do
      let a ← decodeRec r
      let b ← decodeBatch rs
      pure (a ++ b)

/-- The Go map-append `metrics[m] = append(metrics[m], line)`, modelled on an
association list keyed in first-insertion order. -/
def insertLine (k line : String) : List (String × List String) → List (String × List String)
  | [] => [(k, [line])]
  | (k2, ls) :: rest =>
    if k2 = k then (k2, ls ++ [line]) :: rest else (k2, ls) :: insertLine k line rest

/-- The filter-and-group step of the snapshot builder: each decoded sample
whose name matches the filter is appended to its metric's line list. -/
def groupPairs (pat : GoStd.GoPat) (pairs : List (String × String)) :
    List (String × List String) :=
  pairs.foldl (fun acc p => if GoStd.goMatchString pat p.1 then insertLine p.1 p.2 acc else acc) []

/-- The grouped metrics of a batch (the `metrics` map after the record loop).
The source interleaves decoding and insertion record by record; since a
fatal error or panic anywhere aborts the whole build, this is observably the
same as decoding the whole batch and then grouping. -/
def build (pat : GoStd.GoPat) (rs : List Rec) : Option (List (String × List String)) :=
  (decodeBatch rs).map (groupPairs pat)

/-- The line list stored for a metric name in the grouped association list
(reading the Go map at a key; absent keys give the empty list). -/
def keyLines (k : String) : List (String × List String) → List String
  | [] => []
  | (k2, ls) :: rest => if k2 = k then ls else keyLines k rest

/-- Rendering the grouped metrics: one `# TYPE <name> gauge` header per
metric followed by its lines.  Go iterates its map in unspecified order; the
model renders in first-insertion order, and every rendering theorem below is
evaluated only on snapshots with at most one group, where all orders agree. -/
def renderGroups (acc : List (String × List String)) : String :=
  acc.foldl (fun r g => r ++ "# TYPE " ++ g.1 ++ " gauge\n" ++ GoStd.goJoin g.2 "\n" ++ "\n") ""

/-- `fetchMetrics()` of the filtered variant, from decoded records to the
rendered snapshot text. -/
def render (pat : GoStd.GoPat) (rs : List Rec) : Option String :=
  (build pat rs).map renderGroups

end Hist

/-! Helper lemmas shared by the claim theorems. -/

theorem append_newline_ne_empty (s : String) : s ++ "\n" ≠ "" := by
  intro h
  have hd : (s ++ "\n").data = ("" : String).data := by rw [h]
  simp [String.data_append] at hd

/-- C1: the claim states that a payload with more positional fields than the
selected schema has slots must not panic, the extra fields being skipped.
The code does the opposite: the record loop indexes the schema array at
every payload position without a bounds check, so a `D`-coded record whose
payload has 22 comma-separated fields (the `D` schema has 21 slots) makes
`m[i]` panic at `i = 21`, killing the process — modelled as a `none` batch
result.  This theorem evaluates the decoder at that failing input. -/
theorem c1_extra_fields_panic :
    Proto.decodeBatch
      [⟨"D", "1,2,3,4,5,6,7,8,9,10,11,12,13,14,15,16,17,18,19,20,21,22",
        "2023-11-14 22:13:20"⟩] = none := by decide

/-- C2 counterexample: a refresh cycle that decodes to the empty batch does
NOT leave the cache unchanged.  `fetchMetrics` renders the empty batch as
the one-character string `"\n"` (`strings.Join(nil, "\n") + "\n"`), which is
not the empty string, so the cycle replaces the previously cached snapshot. -/
theorem c2_counterexample :
    Proto.refreshStep (.ok []) "ovms_D_doors1 42 1700000000000\n" = some "\n" ∧
    ("\n" : String) ≠ "ovms_D_doors1 42 1700000000000\n" := ⟨by decide, by decide⟩

/-- C2 (amended): a refresh cycle that fails to fetch or fails to decode the
batch leaves the cached snapshot text byte-for-byte unchanged; a cycle whose
fetch and JSON decode both succeed always replaces the cache with the
rendered text (the joined lines plus a trailing newline, never the empty
string) — including the empty batch, which installs the snapshot `"\n"`. -/
theorem c2_amended_stale_cache (cache : String) :
    Proto.refreshStep .fetchFail cache = some cache ∧
    Proto.refreshStep .decodeFail cache = some cache ∧
    ∀ rs ls, Proto.decodeBatch rs = some ls →
      Proto.refreshStep (.ok rs) cache = some (GoStd.goJoin ls "\n" ++ "\n") := by
  refine ⟨by simp [Proto.refreshStep, Proto.fetchMetrics], by simp [Proto.refreshStep, Proto.fetchMetrics], ?_⟩
  intro rs ls h
  have h1 : Proto.fetchMetrics (.ok rs) = some (GoStd.goJoin ls "\n" ++ "\n") := by
    simp [Proto.fetchMetrics, h]
  simp only [Proto.refreshStep, h1]
  show some (if GoStd.goJoin ls "\n" ++ "\n" = "" then cache
             else GoStd.goJoin ls "\n" ++ "\n") = _
  rw [if_neg (append_newline_ne_empty (GoStd.goJoin ls "\n"))]

/-- Witness for C2 (amended) at the empty batch. -/
theorem c2_amended_stale_cache_witness :
    Proto.refreshStep (.ok []) "old" = some (GoStd.goJoin [] "\n" ++ "\n") :=
  (c2_amended_stale_cache "old").2.2 [] [] rfl

/-- C7: normalization of a metric name replaces every literal `.` with `_`
(character-wise, leaving all other characters in place), is idempotent, and
produces a name containing no `.`. -/
theorem c7_normalize_idempotent (x : String) :
    GoStd.normalizeName (GoStd.normalizeName x) = GoStd.normalizeName x ∧
    (∀ c, c ∈ (GoStd.normalizeName x).data → c ≠ '.') ∧
    (GoStd.normalizeName x).data = x.data.map (fun c => if c = '.' then '_' else c) := by
  refine ⟨?_, ?_, rfl⟩
  · have hff : ((fun c => if c = '.' then '_' else c) ∘ (fun c => if c = '.' then '_' else c)) =
        (fun c => if c = '.' then '_' else c) := by
      funext c
      by_cases h : c = '.' <;> simp [h]
    simp only [GoStd.normalizeName, List.map_map, hff]
  · intro c hc
    simp only [GoStd.normalizeName, List.mem_map] at hc
    obtain ⟨a, _, ha⟩ := hc
    by_cases h : a = '.'
    · simp [h] at ha
      simp [← ha]
    · simp [h] at ha
      simp [← ha, h]

/-- Witness for C7 at the schema name `v.b.12v.voltage`. -/
theorem c7_normalize_idempotent_witness :
    GoStd.normalizeName (GoStd.normalizeName "v.b.12v.voltage") =
      GoStd.normalizeName "v.b.12v.voltage" ∧ ('_' : Char) ≠ '.' :=
  ⟨(c7_normalize_idempotent "v.b.12v.voltage").1,
   (c7_normalize_idempotent "v.b.12v.voltage").2.1 '_' (by decide)⟩

theorem metricsMap_all_nonempty (code : String) (m : List String)
    (h : Proto.metricsMap code = some m) : ∀ x ∈ m, x ≠ "" := by
  unfold Proto.metricsMap at h
  split_ifs at h
  · injection h with h'; subst h'; decide
  · injection h with h'; subst h'; decide
  · injection h with h'; subst h'; decide
  · injection h with h'; subst h'; decide

/-- C4: on a batch containing records whose timestamp fails to parse against
the fixed `"2006-01-02 15:04:05"` format, the multi-schema decoder follows
the skip-and-continue policy: a bad-timestamp record contributes no samples
(first conjunct), and the whole batch decodes exactly as the batch with the
bad-timestamp records removed, so the valid records' samples are unaffected
(second conjunct). -/
theorem c4_skip_bad_timestamp :
    (∀ r : Proto.Rec, GoStd.parseTimestamp r.msgTime = none → Proto.decodeRec r = some []) ∧
    ∀ rs : List Proto.Rec,
      Proto.decodeBatch rs =
        Proto.decodeBatch (rs.filter (fun r => (GoStd.parseTimestamp r.msgTime).isSome)) := by
  constructor
  · intro r h
    simp [Proto.decodeRec, h]
  · intro rs
    induction rs with
    | nil => rfl
    | cons r rs ih =>
      cases h : GoStd.parseTimestamp r.msgTime with
      | none => simp [Proto.decodeBatch, Proto.decodeRec, h, ih]
      | some tsm =>
        have hp : (GoStd.parseTimestamp r.msgTime).isSome = true := by rw [h]; rfl
        simp only [List.filter_cons, hp, if_pos]
        simp [Proto.decodeBatch, ih]

/-- Witness for C4 at a record with an unparseable timestamp. -/
theorem c4_skip_bad_timestamp_witness :
    Proto.decodeRec ⟨"D", "13.1", "not a time"⟩ = some [] :=
  c4_skip_bad_timestamp.1 ⟨"D", "13.1", "not a time"⟩ (by decide)

/-- C6: for every supported message-type code (i.e. every code the schema
registry maps) and every record whose payload splits into exactly as many
comma-separated fields as the schema has slots, decoding succeeds and yields
one formatted sample per non-empty slot, paired positionally in slot order;
since every slot of the four schemas `S`/`D`/`L`/`W` is non-empty, the
filter on non-empty slots keeps every position. -/
theorem c6_sample_per_slot (code : String) (m : List String)
    (h : Proto.metricsMap code = some m) (msg time : String) (tsm : Int)
    (ht : GoStd.parseTimestamp time = some tsm)
    (hlen : (GoStd.splitComma msg).length = m.length) :
    Proto.decodeRec ⟨code, msg, time⟩ =
      some (((m.zip (GoStd.splitComma msg)).filter (fun p => p.1 != "")).map
        (fun p => Proto.promMetric ("ovms_" ++ code ++ "_" ++ p.1) p.2 tsm)) := by
  have hfil : (m.zip (GoStd.splitComma msg)).filter (fun p => p.1 != "") =
      m.zip (GoStd.splitComma msg) := by
    apply List.filter_eq_self.mpr
    intro p hp
    obtain ⟨a, b⟩ := p
    have hm := (List.of_mem_zip hp).1
    have := metricsMap_all_nonempty code m h a hm
    simpa using this
  simp only [Proto.decodeRec, ht, h]
  rw [if_pos (Nat.le_of_eq hlen), hfil]

/-- Witness for C6 at a full 21-field `D` record. -/
theorem c6_sample_per_slot_witness :
    Proto.decodeRec ⟨"D", "1,2,3,4,5,6,7,8,9,10,11,12,13,14,15,16,17,18,19,20,21",
        "2023-11-14 22:13:20"⟩ =
      some (((Proto.dMetrics.zip
          (GoStd.splitComma "1,2,3,4,5,6,7,8,9,10,11,12,13,14,15,16,17,18,19,20,21")).filter
          (fun p => p.1 != "")).map
        (fun p => Proto.promMetric ("ovms_" ++ "D" ++ "_" ++ p.1) p.2 1700000000000)) :=
  c6_sample_per_slot "D" Proto.dMetrics (by decide)
    "1,2,3,4,5,6,7,8,9,10,11,12,13,14,15,16,17,18,19,20,21"
    "2023-11-14 22:13:20" 1700000000000 (by decide) (by decide)

theorem keys_insertLine (k0 l : String) (acc : List (String × List String)) (k : String) :
    k ∈ (Hist.insertLine k0 l acc).map Prod.fst ↔ k ∈ acc.map Prod.fst ∨ k = k0 := by
  induction acc with
  | nil => simp [Hist.insertLine]
  | cons p rest ih =>
    obtain ⟨k2, ls⟩ := p
    simp only [Hist.insertLine]
    by_cases h : k2 = k0
    · simp [h]
      tauto
    · simp [h, ih]
      tauto

theorem keys_insertLine_nodup (k0 l : String) (acc : List (String × List String))
    (h : (acc.map Prod.fst).Nodup) :
    ((Hist.insertLine k0 l acc).map Prod.fst).Nodup := by
  induction acc with
  | nil => simp [Hist.insertLine]
  | cons p rest ih =>
    obtain ⟨k2, ls⟩ := p
    simp only [List.map_cons, List.nodup_cons] at h
    simp only [Hist.insertLine]
    by_cases hk : k2 = k0
    · rw [if_pos hk]
      simp only [List.map_cons, List.nodup_cons]
      exact ⟨h.1, h.2⟩
    · rw [if_neg hk]
      simp only [List.map_cons, List.nodup_cons]
      refine ⟨?_, ih h.2⟩
      rw [keys_insertLine]
      simp [h.1, hk]

theorem keyLines_insertLine_same (k l : String) (acc : List (String × List String)) :
    Hist.keyLines k (Hist.insertLine k l acc) = Hist.keyLines k acc ++ [l] := by
  induction acc with
  | nil => simp [Hist.insertLine, Hist.keyLines]
  | cons p rest ih =>
    obtain ⟨k2, ls⟩ := p
    by_cases h : k2 = k
    · subst h
      simp [Hist.insertLine, Hist.keyLines]
    · simp [Hist.insertLine, Hist.keyLines, h, ih]

theorem keyLines_insertLine_ne (k0 k l : String) (acc : List (String × List String))
    (h : k0 ≠ k) :
    Hist.keyLines k (Hist.insertLine k0 l acc) = Hist.keyLines k acc := by
  induction acc with
  | nil => simp [Hist.insertLine, Hist.keyLines, h]
  | cons p rest ih =>
    obtain ⟨k2, ls⟩ := p
    by_cases h2 : k2 = k0
    · subst h2
      simp [Hist.insertLine, Hist.keyLines, h]
    · by_cases h3 : k2 = k <;> simp [Hist.insertLine, Hist.keyLines, h2, h3, Ne.symm h, ih]

theorem keys_groupFold (pat : GoStd.GoPat) (pairs : List (String × String))
    (acc : List (String × List String)) (k : String) :
    k ∈ ((pairs.foldl (fun acc p =>
        if GoStd.goMatchString pat p.1 then Hist.insertLine p.1 p.2 acc else acc) acc).map
        Prod.fst) ↔
      k ∈ acc.map Prod.fst ∨ (GoStd.goMatchString pat k = true ∧ k ∈ pairs.map Prod.fst) := by
  induction pairs generalizing acc with
  | nil => simp
  | cons p rest ih =>
    obtain ⟨n, l⟩ := p
    simp only [List.foldl_cons]
    by_cases hm : GoStd.goMatchString pat n = true
    · rw [if_pos hm, ih, keys_insertLine]
      by_cases hk : k = n
      · subst hk
        simp [hm]
      · simp [hk]
    · rw [if_neg hm, ih]
      by_cases hk : k = n
      · subst hk
        simp only [Bool.not_eq_true] at hm
        simp [hm]
      · simp [hk]

theorem nodup_groupFold (pat : GoStd.GoPat) (pairs : List (String × String))
    (acc : List (String × List String)) (h : (acc.map Prod.fst).Nodup) :
    (((pairs.foldl (fun acc p =>
        if GoStd.goMatchString pat p.1 then Hist.insertLine p.1 p.2 acc else acc) acc).map
        Prod.fst)).Nodup := by
  induction pairs generalizing acc with
  | nil => simpa using h
  | cons p rest ih =>
    simp only [List.foldl_cons]
    by_cases hm : GoStd.goMatchString pat p.1 = true
    · rw [if_pos hm]
      exact ih _ (keys_insertLine_nodup p.1 p.2 acc h)
    · rw [if_neg hm]
      exact ih _ h

theorem keyLines_groupFold (pat : GoStd.GoPat) (pairs : List (String × String))
    (acc : List (String × List String)) (k : String)
    (hm : GoStd.goMatchString pat k = true) :
    Hist.keyLines k (pairs.foldl (fun acc p =>
        if GoStd.goMatchString pat p.1 then Hist.insertLine p.1 p.2 acc else acc) acc) =
      Hist.keyLines k acc ++
        pairs.filterMap (fun p => if p.1 = k then some p.2 else none) := by
  induction pairs generalizing acc with
  | nil => simp
  | cons p rest ih =>
    obtain ⟨n, l⟩ := p
    simp only [List.foldl_cons, List.filterMap_cons]
    by_cases hn : n = k
    · subst hn
      rw [if_pos hm, ih _ , keyLines_insertLine_same]
      simp [List.append_assoc]
    · by_cases hmn : GoStd.goMatchString pat n = true
      · rw [if_pos hmn, ih _, keyLines_insertLine_ne n k l acc hn]
        simp [hn]
      · rw [if_neg hmn, ih _]
        simp [hn]

theorem keys_groupPairs (pat : GoStd.GoPat) (pairs : List (String × String)) (k : String) :
    k ∈ (Hist.groupPairs pat pairs).map Prod.fst ↔
      GoStd.goMatchString pat k = true ∧ k ∈ pairs.map Prod.fst := by
  unfold Hist.groupPairs
  rw [keys_groupFold]
  simp

theorem build_eq_groupPairs (pat : GoStd.GoPat) (rs : List Hist.Rec)
    (pairs : List (String × String)) (hd : Hist.decodeBatch rs = some pairs) :
    Hist.build pat rs = some (Hist.groupPairs pat pairs) := by
  simp [Hist.build, hd]

theorem groupPairs_default_eq (pairs : List (String × String))
    (hvb : "v_b_12v_voltage" ∈ pairs.map Prod.fst) :
    Hist.groupPairs Hist.defaultFilter pairs =
      [("v_b_12v_voltage",
        pairs.filterMap (fun p => if p.1 = "v_b_12v_voltage" then some p.2 else none))] := by
  have hmvb : GoStd.goMatchString Hist.defaultFilter "v_b_12v_voltage" = true := by decide
  have hkeys : ∀ k, k ∈ (Hist.groupPairs Hist.defaultFilter pairs).map Prod.fst →
      k = "v_b_12v_voltage" := by
    intro k hk
    have := (keys_groupPairs Hist.defaultFilter pairs k).mp hk
    have h1 := this.1
    simp only [Hist.defaultFilter, GoStd.goMatchString] at h1
    exact eq_of_beq h1
  have hmem : "v_b_12v_voltage" ∈ (Hist.groupPairs Hist.defaultFilter pairs).map Prod.fst :=
    (keys_groupPairs Hist.defaultFilter pairs "v_b_12v_voltage").mpr ⟨hmvb, hvb⟩
  have hnodup : ((Hist.groupPairs Hist.defaultFilter pairs).map Prod.fst).Nodup :=
    nodup_groupFold Hist.defaultFilter pairs [] (by simp)
  have hlines : Hist.keyLines "v_b_12v_voltage" (Hist.groupPairs Hist.defaultFilter pairs) =
      pairs.filterMap (fun p => if p.1 = "v_b_12v_voltage" then some p.2 else none) := by
    unfold Hist.groupPairs
    rw [keyLines_groupFold Hist.defaultFilter pairs [] _ hmvb]
    simp [Hist.keyLines]
  cases hacc : Hist.groupPairs Hist.defaultFilter pairs with
  | nil => rw [hacc] at hmem; simp at hmem
  | cons g rest =>
    obtain ⟨k1, ls1⟩ := g
    have hk1 : k1 = "v_b_12v_voltage" := hkeys k1 (by rw [hacc]; simp)
    subst hk1
    cases rest with
    | nil =>
      rw [hacc] at hlines
      simp only [Hist.keyLines] at hlines
      simp at hlines
      rw [hlines]
    | cons g2 rest2 =>
      exfalso
      obtain ⟨k2, ls2⟩ := g2
      have hk2 : k2 = "v_b_12v_voltage" := hkeys k2 (by rw [hacc]; simp)
      rw [hacc, hk2] at hnodup
      simp at hnodup

/-- C5 counterexample: with a filter that matches everything (here `.*`),
an empty-name schema slot DOES produce a sample, and the rendered snapshot
contains a `# TYPE  gauge` group whose metric name is empty: a one-field
record fills slot 0, whose schema name is empty, and the match-everything
filter lets the empty name through. -/
theorem c5_counterexample :
    Hist.render .dotStar [⟨"42", "2023-11-14 22:13:20"⟩] =
      some "# TYPE  gauge\n 42 1700000000000\n" ∧
    Hist.build .dotStar [⟨"42", "2023-11-14 22:13:20"⟩] =
      some [("", [" 42 1700000000000"])] := ⟨by decide, by decide⟩

/-- C5 (amended): an empty-name slot produces a Sample exactly when the
configured filter matches the empty string.  For every filter that does not
match the empty string — in particular the shipped default
`^v_b_12v_voltage$` (second conjunct) — no group of the built snapshot has
an empty metric name; a filter matching everything, however, does let
empty-name slots through (see the counterexample). -/
theorem c5_amended_no_empty_name (pat : GoStd.GoPat) (rs : List Hist.Rec)
    (acc : List (String × List String)) (hp : GoStd.goMatchString pat "" = false)
    (hb : Hist.build pat rs = some acc) :
    (∀ k ls, (k, ls) ∈ acc → k ≠ "") ∧
    GoStd.goMatchString Hist.defaultFilter "" = false := by
  refine ⟨?_, by decide⟩
  intro k ls hm hk
  subst hk
  cases hd : Hist.decodeBatch rs with
  | none => rw [Hist.build, hd] at hb; simp at hb
  | some pairs =>
    have hacc : acc = Hist.groupPairs pat pairs := by
      rw [build_eq_groupPairs pat rs pairs hd] at hb
      exact (Option.some.inj hb).symm
    have hkey : ("" : String) ∈ acc.map Prod.fst := List.mem_map.mpr ⟨("", ls), hm, rfl⟩
    rw [hacc] at hkey
    have := ((keys_groupPairs pat pairs "").mp hkey).1
    rw [hp] at this
    cases this

/-- Witness for C5 (amended) at the default filter and a 15-field record. -/
theorem c5_amended_no_empty_name_witness : ("v_b_12v_voltage" : String) ≠ "" :=
  (c5_amended_no_empty_name Hist.defaultFilter
      [⟨"0,0,0,0,25,6,7,8,9,10,11,12,13,14,12.6", "2023-11-14 22:13:20"⟩]
      [("v_b_12v_voltage", ["v_b_12v_voltage 12.6 1700000000000"])]
      (by decide) (by decide)).1
    "v_b_12v_voltage" ["v_b_12v_voltage 12.6 1700000000000"] (by decide)

/-- C8: with the shipped default filter `^v_b_12v_voltage$` configured, a
batch whose decoded samples include both normalized names `v_b_12v_voltage`
and `v_m_temp` builds a snapshot containing exactly the `v_b_12v_voltage`
group — its lines being precisely the decoded sample lines of that metric in
record order — so the rendered text is the single block
`# TYPE v_b_12v_voltage gauge` followed by those lines, and no group for
`v_m_temp` (nor any other name) exists. -/
theorem c8_default_filter_block (rs : List Hist.Rec) (pairs : List (String × String))
    (hd : Hist.decodeBatch rs = some pairs)
    (hvb : "v_b_12v_voltage" ∈ pairs.map Prod.fst)
    (_hvm : "v_m_temp" ∈ pairs.map Prod.fst) :
    Hist.build Hist.defaultFilter rs =
      some [("v_b_12v_voltage",
        pairs.filterMap (fun p => if p.1 = "v_b_12v_voltage" then some p.2 else none))] ∧
    Hist.render Hist.defaultFilter rs =
      some ("# TYPE v_b_12v_voltage gauge\n" ++
        GoStd.goJoin (pairs.filterMap
          (fun p => if p.1 = "v_b_12v_voltage" then some p.2 else none)) "\n" ++ "\n") ∧
    ∀ ls, ("v_m_temp", ls) ∉ Hist.groupPairs Hist.defaultFilter pairs := by
  have hb := build_eq_groupPairs Hist.defaultFilter rs pairs hd
  have hg := groupPairs_default_eq pairs hvb
  refine ⟨by rw [hb, hg], ?_, ?_⟩
  · rw [Hist.render, hb, hg]
    show some (Hist.renderGroups _) = _
    simp only [Hist.renderGroups, List.foldl_cons, List.foldl_nil]
    have hpre : ((("" : String) ++ "# TYPE ") ++ "v_b_12v_voltage") ++ " gauge\n" =
        "# TYPE v_b_12v_voltage gauge\n" := by decide
    rw [hpre]
  · intro ls hmem
    rw [hg] at hmem
    simp only [List.mem_singleton, Prod.mk.injEq] at hmem
    exact absurd hmem.1 (by decide)

/-- Witness for C8 at a 15-field record decoding samples for both
`v_m_temp` (slot 4) and `v_b_12v_voltage` (slot 14). -/
theorem c8_default_filter_block_witness :
    Hist.build Hist.defaultFilter
        [⟨"0,0,0,0,25,6,7,8,9,10,11,12,13,14,12.6", "2023-11-14 22:13:20"⟩] =
      some [("v_b_12v_voltage", ["v_b_12v_voltage 12.6 1700000000000"])] := by
  have h := c8_default_filter_block
      [⟨"0,0,0,0,25,6,7,8,9,10,11,12,13,14,12.6", "2023-11-14 22:13:20"⟩]
      [("", " 0 1700000000000"), ("", " 0 1700000000000"), ("", " 0 1700000000000"),
       ("", " 0 1700000000000"), ("v_m_temp", "v_m_temp 25 1700000000000"),
       ("v_b_temp", "v_b_temp 6 1700000000000"), ("v_p_trip", "v_p_trip 7 1700000000000"),
       ("v_p_odometer", "v_p_odometer 8 1700000000000"),
       ("v_p_speed", "v_p_speed 9 1700000000000"),
       ("v_e_parktime", "v_e_parktime 10 1700000000000"),
       ("v_e_temp", "v_e_temp 11 1700000000000"), ("", " 12 1700000000000"),
       ("", " 13 1700000000000"), ("", " 14 1700000000000"),
       ("v_b_12v_voltage", "v_b_12v_voltage 12.6 1700000000000")]
      (by decide) (by decide) (by decide)
  rw [h.1]
  decide

/-- C9: the name filter is applied as an unanchored search.  First conjunct:
every metric name grouped into a built snapshot matches the filter; second:
every decoded name that matches the filter is grouped; third: the unanchored
literal pattern `v_b` matches exactly the strings containing `v_b` as a
contiguous substring; fourth: the shipped default `^v_b_12v_voltage$` is
fully anchored and matches exactly the one name `v_b_12v_voltage`; fifth: on
a full 21-field record, the pattern `v_b` selects exactly the four schema
names containing `v_b`. -/
theorem c9_unanchored_filter :
    (∀ (pat : GoStd.GoPat) (rs : List Hist.Rec) (acc : List (String × List String))
        (k : String), Hist.build pat rs = some acc → k ∈ acc.map Prod.fst →
          GoStd.goMatchString pat k = true) ∧
    (∀ (pat : GoStd.GoPat) (pairs : List (String × String)) (k : String),
        GoStd.goMatchString pat k = true → k ∈ pairs.map Prod.fst →
          k ∈ (Hist.groupPairs pat pairs).map Prod.fst) ∧
    (∀ s : String, GoStd.goMatchString (.lit "v_b" false false) s = true ↔
        "v_b".data <:+: s.data) ∧
    (∀ s : String, GoStd.goMatchString Hist.defaultFilter s = true ↔
        s = "v_b_12v_voltage") ∧
    (Hist.build (.lit "v_b" false false)
        [⟨"1,2,3,4,25,26,7,8,9,10,11,12,13,14,12.6,16,12.8,18,19,20,21",
          "2023-11-14 22:13:20"⟩]).map (fun acc => acc.map Prod.fst) =
      some ["v_b_temp", "v_b_12v_voltage", "v_b_12v_voltage_ref", "v_b_12v_current"] := by
  refine ⟨?_, ?_, ?_, ?_, by decide⟩
  · intro pat rs acc k hb hk
    cases hd : Hist.decodeBatch rs with
    | none => rw [Hist.build, hd] at hb; simp at hb
    | some pairs =>
      have hacc : acc = Hist.groupPairs pat pairs := by
        rw [build_eq_groupPairs pat rs pairs hd] at hb
        exact (Option.some.inj hb).symm
      rw [hacc] at hk
      exact ((keys_groupPairs pat pairs k).mp hk).1
  · intro pat pairs k hm hk
    exact (keys_groupPairs pat pairs k).mpr ⟨hm, hk⟩
  · intro s
    simp [GoStd.goMatchString]
  · intro s
    simp only [Hist.defaultFilter, GoStd.goMatchString]
    exact ⟨fun h => eq_of_beq h, fun h => by rw [h]; simp⟩

/-- Witness for C9: applications of the first two conjuncts at concrete
inputs (a six-field record whose only `v_b`-containing decoded name is
`v_b_temp`, and a one-pair list). -/
theorem c9_unanchored_filter_witness :
    GoStd.goMatchString (.lit "v_b" false false) "v_b_temp" = true ∧
    "v_b_temp" ∈ (Hist.groupPairs (.lit "v_b" false false)
        [("v_b_temp", "v_b_temp 26 1700000000000")]).map Prod.fst := by
  constructor
  · exact c9_unanchored_filter.1 (.lit "v_b" false false)
      [⟨"1,2,3,4,5,26", "2023-11-14 22:13:20"⟩]
      [("v_b_temp", ["v_b_temp 26 1700000000000"])] "v_b_temp" (by decide) (by decide)
  · exact c9_unanchored_filter.2.1 (.lit "v_b" false false)
      [("v_b_temp", "v_b_temp 26 1700000000000")] "v_b_temp" (by decide) (by decide)

